import Mathlib

/-!
# Verification of the REDCap-EDA type-dispatch analysis pipeline

A shallow embedding of the core of the REDCap-EDA repository:

* `src/redcap_eda/cast_schema.py` — schema loading and enforcement
  (`SchemaHandler.enforce_schema`, `SchemaHandler.create_interactive_schema`);
* `src/redcap_eda/analysis/eda.py` — the column dispatcher
  (`ExploratoryDataAnalysis.analyze_column`, `ExploratoryDataAnalysis.explore`,
  `ExploratoryDataAnalysis.save_report`);
* `src/redcap_eda/analysis/numerical/mixins.py` — the numerical analyzer
  (`NumericalAnalysisMixin.numerical_summary`);
* `src/redcap_eda/unified_report.py` — the report accumulator (`UnifiedReport`);
* `src/redcap_eda/analysis/json_report_handler.py` — JSON serialization
  (`JSONReportHandler.save_report`).

Pandas dataframes are embedded as ordered association lists of named columns;
a column carries its dtype string and an opaque list of cell values.  Pandas
`Series.astype` — an external library operation — is passed in as an abstract
coercion oracle returning `Option` (`none` models the `ValueError` that
`enforce_schema` catches).  Stateful Python code is modelled by explicit state
passing; a raised exception is an `Except.error` / `Option.none` result.
-/

namespace RedcapEda

/-! ## Data model: dataframes

A pandas `DataFrame` is embedded as an ordered list of named columns.
`Column.dtype` is the stored dtype string (`str(df[col].dtype)`), and
`Column.values` the cell contents, kept opaque as strings: no claim in scope
inspects individual cell values, only dtypes and column identity. -/

structure Column where
  dtype : String
  values : List String
  deriving Repr, DecidableEq, Inhabited

/-- A dataframe: ordered, named columns (`df.columns` is the key list). -/
abbrev Df := List (String × Column)

/-- `df.columns`. -/
def dfNames (df : Df) : List String := df.map Prod.fst

/-- Key lookup in an ordered association list (first occurrence wins), the
access pattern of Python dicts and of `df[column]` in the embedding. -/
def lookupKey {κ : Type} [DecidableEq κ] (k : κ) : List (κ × α) → Option α
  | [] => none
  | p :: rest => if p.1 = k then some p.2 else lookupKey k rest

/-- `df[column] = newCol` for an existing column: replace in place, preserving
column order.  (The enforcement loop only assigns to columns that already
exist in the dataframe.) -/
def dfSet (df : Df) (c : String) (col : Column) : Df :=
  df.map (fun p => if p.1 = c then (p.1, col) else p)

/-! ## `cast_schema.py` — `SchemaHandler.enforce_schema` (lines 114–158)

The loaded schema is a Python dict `column name → dtype string`; embedded as
an association list in insertion order (dict keys are unique).

`df[column].astype(dtype)` is pandas, external to the repository: it is passed
in as an abstract coercion `Cast`; `none` models the `ValueError` that the
`except ValueError` arm of `enforce_schema` catches, `some` the successfully
converted column. -/

/-- Abstract `Series.astype`: input column and declared dtype, `some` the
converted column on success, `none` for a raised `ValueError`. -/
abbrev Cast := Column → String → Option Column

/-- One row of the conversion report: `column ↦ (Before, After)`.  The nested
pair lets `lookupKey` retrieve the `(Before, After)` cell pair by column. -/
abbrev ReportRow := String × String × String

/-- The second component returned by `enforce_schema`: either the plain empty
dict `{}` (no-schema early return, line 131) or the `pd.DataFrame` built by
`pd.DataFrame.from_dict(conversion_report, orient="index", columns=["Before",
"After"])` (lines 152–156), which has one row per `conversion_report` key, in
insertion order. -/
inductive MutationReport where
  | emptyDict
  | table (rows : List ReportRow)
  deriving Repr, DecidableEq

/-- The rows of the mutation record (the empty dict has none). -/
def MutationReport.rows : MutationReport → List ReportRow
  | .emptyDict => []
  | .table rs => rs

/-- The loop body of `enforce_schema` (lines 136–149): for a schema entry
`(column, dtype)`, if `column in df.columns`, attempt
`df[column] = df[column].astype(dtype)`; on success record
`(before_types[column], dtype)`, on `ValueError` record
`(before_types[column], "Conversion Failed")` and leave the column untouched.
`beforeTypes` is the pre-loop snapshot `df.dtypes.copy()` (line 133); the
`getD` fallback is unreachable because the loop guard ensures the column
exists and assignment never adds or removes columns. -/
def enforceStep (cast : Cast) (beforeTypes : List (String × String))
    (acc : Df × List ReportRow) (entry : String × String) : Df × List ReportRow :=
  let column := entry.1
  let dtype := entry.2
  match lookupKey column acc.1 with
  | none => acc
  | some col =>
      let before := (lookupKey column beforeTypes).getD col.dtype
      match cast col dtype with
      | some newCol => (dfSet acc.1 column newCol, acc.2 ++ [(column, before, dtype)])
      | none => (acc.1, acc.2 ++ [(column, before, "Conversion Failed")])

/-- `SchemaHandler.enforce_schema` (lines 114–158).  With an empty schema it
returns the untouched dataframe and the plain empty dict (lines 127–131);
otherwise it folds the conversion loop over the schema entries and wraps the
accumulated `conversion_report` rows as the report DataFrame. -/
def enforce_schema (cast : Cast) (schema : List (String × String)) (df : Df) :
    Df × MutationReport :=
  if schema.isEmpty then (df, .emptyDict)
  else
    let beforeTypes := df.map (fun p => (p.1, p.2.dtype))
    let res := schema.foldl (enforceStep cast beforeTypes) (df, [])
    (res.1, .table res.2)

/-! ### Association-list and fold lemmas shared by the `enforce_schema` claims -/

theorem lookupKey_dfSet (df : Df) (c x : String) (col : Column) :
    lookupKey x (dfSet df c col) =
      (lookupKey x df).map (fun old => if c = x then col else old) := by
  induction df with
  | nil => rfl
  | cons p df ih =>
      obtain ⟨a, b⟩ := p
      show lookupKey x ((if a = c then (a, col) else (a, b)) :: dfSet df c col) = _
      by_cases hac : a = c
      · rw [if_pos hac]
        by_cases hxa : a = x
        · rw [lookupKey, if_pos hxa, lookupKey, if_pos hxa]
          rw [hac] at hxa
          simp [hxa]
        · rw [lookupKey, if_neg hxa, lookupKey, if_neg hxa]
          exact ih
      · rw [if_neg hac]
        by_cases hxa : a = x
        · have hcx : ¬ c = x := fun h => hac (hxa.trans h.symm)
          rw [lookupKey, if_pos hxa, lookupKey, if_pos hxa]
          simp [hcx]
        · rw [lookupKey, if_neg hxa, lookupKey, if_neg hxa]
          exact ih

theorem lookupKey_dfSet_isSome (df : Df) (c x : String) (col : Column) :
    (lookupKey x (dfSet df c col)).isSome = (lookupKey x df).isSome := by
  rw [lookupKey_dfSet]; cases lookupKey x df <;> rfl

theorem lookupKey_dfSet_ne (df : Df) (c x : String) (col : Column) (h : c ≠ x) :
    lookupKey x (dfSet df c col) = lookupKey x df := by
  rw [lookupKey_dfSet]; cases lookupKey x df with
  | none => rfl
  | some old => simp [h]

theorem lookupKey_dfSet_self (df : Df) (c : String) (col old : Column)
    (h : lookupKey c df = some old) :
    lookupKey c (dfSet df c col) = some col := by
  rw [lookupKey_dfSet, h]; simp

/-- The dtype snapshot taken on line 133, looked up by column name. -/
theorem lookupKey_beforeTypes (df : Df) (c : String) :
    lookupKey c (df.map (fun p => (p.1, p.2.dtype))) =
      (lookupKey c df).map Column.dtype := by
  induction df with
  | nil => rfl
  | cons p df ih =>
      show lookupKey c ((p.1, p.2.dtype) :: _) = _
      by_cases h : p.1 = c
      · rw [lookupKey, if_pos h, lookupKey, if_pos h]
        rfl
      · rw [lookupKey, if_neg h, lookupKey, if_neg h]
        exact ih

/-- A single enforcement step preserves which columns exist. -/
theorem enforceStep_lookup_isSome (cast : Cast) (bt : List (String × String))
    (acc : Df × List ReportRow) (entry : String × String) (x : String) :
    (lookupKey x (enforceStep cast bt acc entry).1).isSome =
      (lookupKey x acc.1).isSome := by
  cases h1 : lookupKey entry.1 acc.1 with
  | none => simp [enforceStep, h1]
  | some col =>
      cases h2 : cast col entry.2 with
      | none => simp [enforceStep, h1, h2]
      | some newCol => simp [enforceStep, h1, h2, lookupKey_dfSet_isSome]

/-- A step touching a different schema key leaves a column untouched. -/
theorem enforceStep_lookup_ne (cast : Cast) (bt : List (String × String))
    (acc : Df × List ReportRow) (entry : String × String) (x : String)
    (h : entry.1 ≠ x) :
    lookupKey x (enforceStep cast bt acc entry).1 = lookupKey x acc.1 := by
  cases h1 : lookupKey entry.1 acc.1 with
  | none => simp [enforceStep, h1]
  | some col =>
      cases h2 : cast col entry.2 with
      | none => simp [enforceStep, h1, h2]
      | some newCol => simp [enforceStep, h1, h2, lookupKey_dfSet_ne _ _ _ _ h]

/-- A step never removes report rows: it appends zero or one row, keyed by the
schema entry it processed. -/
theorem enforceStep_report (cast : Cast) (bt : List (String × String))
    (acc : Df × List ReportRow) (entry : String × String) :
    (enforceStep cast bt acc entry).2 = acc.2 ∨
      ∃ before after, (enforceStep cast bt acc entry).2 =
        acc.2 ++ [(entry.1, before, after)] := by
  cases h1 : lookupKey entry.1 acc.1 with
  | none => exact Or.inl (by simp [enforceStep, h1])
  | some col =>
      cases h2 : cast col entry.2 with
      | none =>
          exact Or.inr ⟨(lookupKey entry.1 bt).getD col.dtype, "Conversion Failed",
            by simp [enforceStep, h1, h2]⟩
      | some newCol =>
          exact Or.inr ⟨(lookupKey entry.1 bt).getD col.dtype, entry.2,
            by simp [enforceStep, h1, h2]⟩

theorem lookupKey_append (x : String) (l1 l2 : List (String × α)) :
    lookupKey x (l1 ++ l2) =
      match lookupKey x l1 with
      | some v => some v
      | none => lookupKey x l2 := by
  induction l1 with
  | nil => rfl
  | cons p l1 ih =>
      by_cases h : p.1 = x
      · simp [lookupKey, h]
      · simp [lookupKey, h, ih]

theorem lookupKey_append_none (x : String) (l1 l2 : List (String × α))
    (h : lookupKey x l1 = none) :
    lookupKey x (l1 ++ l2) = lookupKey x l2 := by
  rw [lookupKey_append, h]

theorem lookupKey_none_of_keys (x : String) (l : List (String × α))
    (h : ∀ p ∈ l, p.1 ≠ x) : lookupKey x l = none := by
  induction l with
  | nil => rfl
  | cons p l ih =>
      rw [lookupKey, if_neg (h p (List.mem_cons_self p l))]
      exact ih (fun q hq => h q (List.mem_cons_of_mem p hq))

/-- The dataframe produced by a step does not depend on the report so far. -/
theorem enforceStep_fst_irrel (cast : Cast) (bt : List (String × String))
    (df : Df) (r r2 : List ReportRow) (e : String × String) :
    (enforceStep cast bt (df, r) e).1 = (enforceStep cast bt (df, r2) e).1 := by
  cases h1 : lookupKey e.1 df with
  | none => simp [enforceStep, h1]
  | some col =>
      cases h2 : cast col e.2 with
      | none => simp [enforceStep, h1, h2]
      | some newCol => simp [enforceStep, h1, h2]

/-- A step appends to the report: its output is the input report followed by
whatever the step run from an empty report produces. -/
theorem enforceStep_snd_extends (cast : Cast) (bt : List (String × String))
    (df : Df) (r : List ReportRow) (e : String × String) :
    (enforceStep cast bt (df, r) e).2 = r ++ (enforceStep cast bt (df, []) e).2 := by
  cases h1 : lookupKey e.1 df with
  | none => simp [enforceStep, h1]
  | some col =>
      cases h2 : cast col e.2 with
      | none => simp [enforceStep, h1, h2]
      | some newCol => simp [enforceStep, h1, h2]

/-- The dataframe component of the enforcement fold ignores the accumulated
report. -/
theorem foldl_enforce_fst_irrel (cast : Cast) (bt : List (String × String)) :
    ∀ (schema : List (String × String)) (df : Df) (r r2 : List ReportRow),
    (schema.foldl (enforceStep cast bt) (df, r)).1 =
      (schema.foldl (enforceStep cast bt) (df, r2)).1 := by
  intro schema
  induction schema with
  | nil => intro df r r2; rfl
  | cons e es ih =>
      intro df r r2
      rw [List.foldl_cons, List.foldl_cons]
      have h1 := enforceStep_fst_irrel cast bt df r r2 e
      calc (es.foldl (enforceStep cast bt) (enforceStep cast bt (df, r) e)).1
          = (es.foldl (enforceStep cast bt)
              ((enforceStep cast bt (df, r) e).1, (enforceStep cast bt (df, r) e).2)).1 := by rfl
        _ = (es.foldl (enforceStep cast bt)
              ((enforceStep cast bt (df, r2) e).1, (enforceStep cast bt (df, r2) e).2)).1 := by
              rw [h1]; exact ih _ _ _
        _ = (es.foldl (enforceStep cast bt) (enforceStep cast bt (df, r2) e)).1 := by rfl

/-- The enforcement fold only appends report rows. -/
theorem foldl_enforce_snd_extends (cast : Cast) (bt : List (String × String)) :
    ∀ (schema : List (String × String)) (df : Df) (r : List ReportRow),
    (schema.foldl (enforceStep cast bt) (df, r)).2 =
      r ++ (schema.foldl (enforceStep cast bt) (df, [])).2 := by
  intro schema
  induction schema with
  | nil => intro df r; simp
  | cons e es ih =>
      intro df r
      rw [List.foldl_cons, List.foldl_cons]
      have hfst := enforceStep_fst_irrel cast bt df r [] e
      have hsnd := enforceStep_snd_extends cast bt df r e
      calc (es.foldl (enforceStep cast bt) (enforceStep cast bt (df, r) e)).2
          = (es.foldl (enforceStep cast bt)
              ((enforceStep cast bt (df, r) e).1, (enforceStep cast bt (df, r) e).2)).2 := by rfl
        _ = r ++ (enforceStep cast bt (df, []) e).2 ++
              (es.foldl (enforceStep cast bt)
                ((enforceStep cast bt (df, r) e).1, [])).2 := by
              rw [ih ((enforceStep cast bt (df, r) e).1) ((enforceStep cast bt (df, r) e).2),
                hsnd, List.append_assoc]
        _ = r ++ ((enforceStep cast bt (df, []) e).2 ++
              (es.foldl (enforceStep cast bt)
                ((enforceStep cast bt (df, []) e).1, [])).2) := by
              rw [List.append_assoc, hfst]
        _ = r ++ (es.foldl (enforceStep cast bt)
              ((enforceStep cast bt (df, []) e).1, (enforceStep cast bt (df, []) e).2)).2 := by
              rw [ih ((enforceStep cast bt (df, []) e).1) ((enforceStep cast bt (df, []) e).2)]
        _ = r ++ (es.foldl (enforceStep cast bt) (enforceStep cast bt (df, []) e)).2 := by rfl

/-- The enforcement fold preserves which columns exist. -/
theorem foldl_enforce_lookup_isSome (cast : Cast) (bt : List (String × String)) :
    ∀ (schema : List (String × String)) (df : Df) (r : List ReportRow) (x : String),
    (lookupKey x (schema.foldl (enforceStep cast bt) (df, r)).1).isSome =
      (lookupKey x df).isSome := by
  intro schema
  induction schema with
  | nil => intro df r x; rfl
  | cons e es ih =>
      intro df r x
      rw [List.foldl_cons]
      have h := enforceStep_lookup_isSome cast bt (df, r) e x
      calc (lookupKey x (es.foldl (enforceStep cast bt) (enforceStep cast bt (df, r) e)).1).isSome
          = (lookupKey x (es.foldl (enforceStep cast bt)
              ((enforceStep cast bt (df, r) e).1, (enforceStep cast bt (df, r) e).2)).1).isSome := by rfl
        _ = (lookupKey x (enforceStep cast bt (df, r) e).1).isSome := ih _ _ _
        _ = (lookupKey x df).isSome := h

/-- Columns never named by the remaining schema entries stay untouched. -/
theorem foldl_enforce_lookup_notin (cast : Cast) (bt : List (String × String)) :
    ∀ (schema : List (String × String)) (df : Df) (r : List ReportRow) (x : String),
    x ∉ schema.map Prod.fst →
    lookupKey x (schema.foldl (enforceStep cast bt) (df, r)).1 = lookupKey x df := by
  intro schema
  induction schema with
  | nil => intro df r x _; rfl
  | cons e es ih =>
      intro df r x hx
      rw [List.map_cons] at hx
      have hex : e.1 ≠ x := fun h => hx (by rw [h]; exact List.mem_cons_self x _)
      have hesx : x ∉ es.map Prod.fst := fun h => hx (List.mem_cons_of_mem _ h)
      rw [List.foldl_cons]
      have h := enforceStep_lookup_ne cast bt (df, r) e x hex
      calc lookupKey x (es.foldl (enforceStep cast bt) (enforceStep cast bt (df, r) e)).1
          = lookupKey x (es.foldl (enforceStep cast bt)
              ((enforceStep cast bt (df, r) e).1, (enforceStep cast bt (df, r) e).2)).1 := by rfl
        _ = lookupKey x (enforceStep cast bt (df, r) e).1 := ih _ _ _ hesx
        _ = lookupKey x df := h

/-- Every report row produced by the fold is keyed by some schema entry. -/
theorem foldl_enforce_keys (cast : Cast) (bt : List (String × String)) :
    ∀ (schema : List (String × String)) (df : Df) (row : ReportRow),
    row ∈ (schema.foldl (enforceStep cast bt) (df, [])).2 →
    row.1 ∈ schema.map Prod.fst := by
  intro schema
  induction schema with
  | nil => intro df row h; exact absurd h (by simp)
  | cons e es ih =>
      intro df row hrow
      rw [List.foldl_cons] at hrow
      have : (es.foldl (enforceStep cast bt) (enforceStep cast bt (df, []) e)).2
          = (enforceStep cast bt (df, []) e).2 ++
            (es.foldl (enforceStep cast bt) ((enforceStep cast bt (df, []) e).1, [])).2 := by
        calc (es.foldl (enforceStep cast bt) (enforceStep cast bt (df, []) e)).2
            = (es.foldl (enforceStep cast bt)
                ((enforceStep cast bt (df, []) e).1, (enforceStep cast bt (df, []) e).2)).2 := by rfl
          _ = _ := foldl_enforce_snd_extends cast bt es _ _
      rw [this] at hrow
      rcases List.mem_append.mp hrow with hl | hr
      · rcases enforceStep_report cast bt (df, []) e with hnone | ⟨b, a, happ⟩
        · rw [hnone] at hl; exact absurd hl (by simp)
        · rw [happ] at hl
          simp at hl
          rw [hl]
          exact List.mem_cons_self e.1 (es.map Prod.fst)
      · exact List.mem_cons_of_mem _ (ih _ _ hr)

/-- The fold records exactly one row per schema entry whose column exists. -/
theorem foldl_enforce_length (cast : Cast) (bt : List (String × String)) :
    ∀ (schema : List (String × String)) (df : Df) (r : List ReportRow),
    ((schema.foldl (enforceStep cast bt) (df, r)).2).length =
      r.length + schema.countP (fun e => (lookupKey e.1 df).isSome) := by
  intro schema
  induction schema with
  | nil => intro df r; simp
  | cons e es ih =>
      intro df r
      rw [List.foldl_cons]
      have hcong : ∀ g ∈ es,
          ((lookupKey g.1 (enforceStep cast bt (df, r) e).1).isSome = true ↔
            (lookupKey g.1 df).isSome = true) := by
        intro g _
        rw [enforceStep_lookup_isSome cast bt (df, r) e g.1]
      cases h1 : lookupKey e.1 df with
      | none =>
          have hstep : enforceStep cast bt (df, r) e = (df, r) := by
            simp [enforceStep, h1]
          rw [hstep, ih df r]
          rw [List.countP_cons]
          simp [h1]
      | some col =>
          have hlen2 : (enforceStep cast bt (df, r) e).2.length = r.length + 1 := by
            cases h2 : cast col e.2 with
            | none => simp [enforceStep, h1, h2]
            | some newCol => simp [enforceStep, h1, h2]
          have : (es.foldl (enforceStep cast bt) (enforceStep cast bt (df, r) e)).2.length
              = (enforceStep cast bt (df, r) e).2.length +
                es.countP (fun q => (lookupKey q.1 (enforceStep cast bt (df, r) e).1).isSome) := by
            have := ih (enforceStep cast bt (df, r) e).1 (enforceStep cast bt (df, r) e).2
            calc (es.foldl (enforceStep cast bt) (enforceStep cast bt (df, r) e)).2.length
                = (es.foldl (enforceStep cast bt)
                    ((enforceStep cast bt (df, r) e).1, (enforceStep cast bt (df, r) e).2)).2.length := by rfl
              _ = _ := by rw [this]
          rw [this, hlen2, List.countP_congr hcong, List.countP_cons]
          simp [h1]
          omega

/-- The central description of the fold at one schema entry `(c, dt)` whose
column exists: the report gets exactly the row the source stores for `c`
(`(before, dt)` on success, `(before, "Conversion Failed")` on `ValueError`),
and the dataframe keeps the old column on failure or holds the converted one
on success. -/
theorem foldl_enforce_entry (cast : Cast) (bt : List (String × String)) :
    ∀ (schema : List (String × String)) (df : Df) (c dt : String) (col : Column) (b0 : String),
    (schema.map Prod.fst).Nodup →
    (c, dt) ∈ schema →
    lookupKey c df = some col →
    lookupKey c bt = some b0 →
    (cast col dt = none →
        lookupKey c (schema.foldl (enforceStep cast bt) (df, [])).2 =
          some (b0, "Conversion Failed")
        ∧ lookupKey c (schema.foldl (enforceStep cast bt) (df, [])).1 = some col)
    ∧ (∀ col2, cast col dt = some col2 →
        lookupKey c (schema.foldl (enforceStep cast bt) (df, [])).2 = some (b0, dt)
        ∧ lookupKey c (schema.foldl (enforceStep cast bt) (df, [])).1 = some col2) := by
  intro schema
  induction schema with
  | nil => intro df c dt col b0 _ hmem; exact absurd hmem (by simp)
  | cons e es ih =>
      intro df c dt col b0 hnd hmem hcol hbt
      rw [List.map_cons, List.nodup_cons] at hnd
      have hsplit : (c, dt) = e ∨ ((c, dt) ∈ es ∧ e.1 ≠ c) := by
        rcases List.mem_cons.mp hmem with heq | hes
        · exact Or.inl heq
        · refine Or.inr ⟨hes, fun h => hnd.1 ?_⟩
          rw [h]
          exact List.mem_map.mpr ⟨(c, dt), hes, rfl⟩
      have hpre : ∀ (df2 : Df) (r : List ReportRow),
          (es.foldl (enforceStep cast bt) (df2, r)).2 =
            r ++ (es.foldl (enforceStep cast bt) (df2, [])).2 :=
        fun df2 r => foldl_enforce_snd_extends cast bt es df2 r
      rcases hsplit with heq | ⟨hes, hne⟩
      · -- this entry is the one that processes column `c`
        have he1 : e.1 = c := by rw [← heq]
        have he2 : e.2 = dt := by rw [← heq]
        have hnotin : c ∉ es.map Prod.fst := by rw [← he1]; exact hnd.1
        have hrest : ∀ row ∈ (es.foldl (enforceStep cast bt) ((enforceStep cast bt (df, []) e).1, [])).2,
            row.1 ≠ c := by
          intro row hrow h
          exact hnotin (h ▸ foldl_enforce_keys cast bt es _ row hrow)
        constructor
        · intro hfail
          have hstep : enforceStep cast bt (df, []) e =
              (df, [(c, b0, "Conversion Failed")]) := by
            simp [enforceStep, he1, he2, hcol, hbt, hfail]
          rw [List.foldl_cons, hstep]
          constructor
          · rw [hpre df [(c, b0, "Conversion Failed")]]
            rw [show ([(c, b0, "Conversion Failed")] ++
                (es.foldl (enforceStep cast bt) (df, [])).2) =
              (c, b0, "Conversion Failed") :: (es.foldl (enforceStep cast bt) (df, [])).2 from rfl]
            rw [lookupKey, if_pos rfl]
          · rw [foldl_enforce_lookup_notin cast bt es df _ c hnotin]
            exact hcol
        · intro col2 hok
          have hstep : enforceStep cast bt (df, []) e =
              (dfSet df c col2, [(c, b0, dt)]) := by
            simp [enforceStep, he1, he2, hcol, hbt, hok]
          rw [List.foldl_cons, hstep]
          constructor
          · rw [hpre (dfSet df c col2) [(c, b0, dt)]]
            rw [show ([(c, b0, dt)] ++
                (es.foldl (enforceStep cast bt) (dfSet df c col2, [])).2) =
              (c, b0, dt) :: (es.foldl (enforceStep cast bt) (dfSet df c col2, [])).2 from rfl]
            rw [lookupKey, if_pos rfl]
          · rw [foldl_enforce_lookup_notin cast bt es (dfSet df c col2) _ c hnotin]
            exact lookupKey_dfSet_self df c col2 col hcol
      · -- a different entry comes first; column `c` is processed later
        have hcol2 : lookupKey c (enforceStep cast bt (df, []) e).1 = some col := by
          rw [enforceStep_lookup_ne cast bt (df, []) e c hne]
          exact hcol
        have hih := ih (enforceStep cast bt (df, []) e).1 c dt col b0 hnd.2 hes hcol2 hbt
        have hkeyrow : ∀ v, lookupKey c ((enforceStep cast bt (df, []) e).2 ++ v) = lookupKey c v := by
          intro v
          apply lookupKey_append_none
          apply lookupKey_none_of_keys
          intro p hp h
          rcases enforceStep_report cast bt (df, []) e with hnone | ⟨b, a, happ⟩
          · rw [hnone] at hp; exact absurd hp (by simp)
          · rw [happ] at hp
            simp at hp
            rw [hp] at h
            exact hne h
        have hfold2 : es.foldl (enforceStep cast bt) (enforceStep cast bt (df, []) e)
            = es.foldl (enforceStep cast bt)
                ((enforceStep cast bt (df, []) e).1, (enforceStep cast bt (df, []) e).2) := by rfl
        constructor
        · intro hfail
          have h1 := (hih.1 hfail).1
          have h2 := (hih.1 hfail).2
          rw [List.foldl_cons, hfold2]
          constructor
          · rw [hpre (enforceStep cast bt (df, []) e).1 (enforceStep cast bt (df, []) e).2,
              hkeyrow _]
            exact h1
          · have := foldl_enforce_fst_irrel cast bt es (enforceStep cast bt (df, []) e).1
              (enforceStep cast bt (df, []) e).2 []
            rw [this]
            exact h2
        · intro col2 hok
          have h1 := (hih.2 col2 hok).1
          have h2 := (hih.2 col2 hok).2
          rw [List.foldl_cons, hfold2]
          constructor
          · rw [hpre (enforceStep cast bt (df, []) e).1 (enforceStep cast bt (df, []) e).2,
              hkeyrow _]
            exact h1
          · have := foldl_enforce_fst_irrel cast bt es (enforceStep cast bt (df, []) e).1
              (enforceStep cast bt (df, []) e).2 []
            rw [this]
            exact h2

/-- With a non-empty schema the early `return df, {}` branch is skipped. -/
theorem enforce_schema_eq_fold (cast : Cast) (schema : List (String × String)) (df : Df)
    (h : schema ≠ []) :
    enforce_schema cast schema df =
      ((schema.foldl (enforceStep cast (df.map fun p => (p.1, p.2.dtype))) (df, [])).1,
        .table (schema.foldl (enforceStep cast (df.map fun p => (p.1, p.2.dtype))) (df, [])).2) := by
  cases schema with
  | nil => exact absurd rfl h
  | cons e es => rfl

/-! ### Concrete inputs for the `enforce_schema` claims -/

/-- A cast oracle that always succeeds, updating the stored dtype (the normal
pandas `astype` behaviour on convertible data). -/
def castAlways : Cast := fun col dtype => some { col with dtype := dtype }

/-- A cast oracle that always raises `ValueError` (pandas `astype` on
unconvertible data, e.g. `"not-a-date"` to `datetime64[ns]`). -/
def castNever : Cast := fun _ _ => none

/-- A two-column dataframe of which the schema below names only one column. -/
def dfTwoCols : Df := [("a", ⟨"object", ["1"]⟩), ("b", ⟨"object", ["x"]⟩)]

/-- A schema naming a single column of `dfTwoCols`. -/
def schemaOneCol : List (String × String) := [("a", "int64")]

/-- The `dob` dataframe of the spec scenario (section 8). -/
def dfDob : Df := [("dob", ⟨"object", ["not-a-date"]⟩)]

/-- The schema declaring `dob` as a datetime. -/
def schemaDob : List (String × String) := [("dob", "datetime64[ns]")]

/-- C10: with no loaded schema (empty mapping), `enforce_schema` raises no
error, returns the input dataframe with every column and dtype unchanged, and
returns the plain empty dict in place of a DataFrame-shaped mutation record
(`cast_schema.py` lines 127–131). -/
theorem enforce_schema_no_schema (cast : Cast) (df : Df) :
    enforce_schema cast [] df = (df, MutationReport.emptyDict) := rfl

/-- C1 counterexample: on a two-column dataframe whose schema names only one
column, the mutation record has a single row (for the schema column), not
`len(df.columns) = 2` rows: `conversion_report` (lines 136–149) is keyed by
schema entries present in the dataframe, never by unnamed dataframe columns. -/
theorem enforce_schema_rows_cex :
    ((enforce_schema castAlways schemaOneCol dfTwoCols).2).rows =
        [("a", "object", "int64")]
    ∧ dfTwoCols.length = 2
    ∧ ((enforce_schema castAlways schemaOneCol dfTwoCols).2).rows.length ≠
        dfTwoCols.length := by
  decide

/-- C1 (amended): for a loaded (hence non-empty, unique-keyed) schema, the
mutation record has exactly one row for every schema entry whose column exists
in the dataframe (not one for every dataframe column), and every such column
has an After entry equal to the declared dtype or `"Conversion Failed"`,
paired with its pre-enforcement dtype. -/
theorem enforce_schema_mutation_record (cast : Cast) (schema : List (String × String))
    (df : Df) (hne : schema ≠ []) (hnd : (schema.map Prod.fst).Nodup) :
    ((enforce_schema cast schema df).2).rows.length =
        (schema.filter (fun e => (lookupKey e.1 df).isSome)).length
    ∧ ∀ c dt col, (c, dt) ∈ schema → lookupKey c df = some col →
        lookupKey c ((enforce_schema cast schema df).2).rows = some (col.dtype, dt)
        ∨ lookupKey c ((enforce_schema cast schema df).2).rows =
            some (col.dtype, "Conversion Failed") := by
  have hpair := enforce_schema_eq_fold cast schema df hne
  have hrows : ((enforce_schema cast schema df).2).rows =
      (schema.foldl (enforceStep cast (df.map fun p => (p.1, p.2.dtype))) (df, [])).2 := by
    rw [hpair]
    rfl
  constructor
  · rw [hrows, foldl_enforce_length cast _ schema df [], List.countP_eq_length_filter]
    exact Nat.zero_add _
  · intro c dt col hmem hcol
    rw [hrows]
    have hbt : lookupKey c (df.map fun p => (p.1, p.2.dtype)) = some col.dtype := by
      rw [lookupKey_beforeTypes, hcol]
      rfl
    have hentry := foldl_enforce_entry cast (df.map fun p => (p.1, p.2.dtype))
      schema df c dt col col.dtype hnd hmem hcol hbt
    cases hc : cast col dt with
    | none =>
        right
        exact (hentry.1 hc).1
    | some col2 =>
        left
        exact (hentry.2 col2 hc).1

/-- Closed witness for `enforce_schema_mutation_record` at a concrete input. -/
theorem enforce_schema_mutation_record_witness :
    ((enforce_schema castAlways schemaOneCol dfTwoCols).2).rows.length =
        (schemaOneCol.filter (fun e => (lookupKey e.1 dfTwoCols).isSome)).length
    ∧ ∀ c dt col, (c, dt) ∈ schemaOneCol → lookupKey c dfTwoCols = some col →
        lookupKey c ((enforce_schema castAlways schemaOneCol dfTwoCols).2).rows =
            some (col.dtype, dt)
        ∨ lookupKey c ((enforce_schema castAlways schemaOneCol dfTwoCols).2).rows =
            some (col.dtype, "Conversion Failed") :=
  enforce_schema_mutation_record castAlways schemaOneCol dfTwoCols
    (by decide) (by decide)

/-- C6: when a declared coercion fails (the only failure mode the source
handles: `except ValueError`, lines 144–149), the record pairs the column
with `(before-dtype, "Conversion Failed")`, the column keeps its data and
dtype, and every other schema column present in the dataframe still gets a
report row — enforcement continues without retrying. -/
theorem enforce_schema_conversion_failed (cast : Cast) (schema : List (String × String))
    (df : Df) (c dt : String) (col : Column)
    (hnd : (schema.map Prod.fst).Nodup)
    (hmem : (c, dt) ∈ schema)
    (hcol : lookupKey c df = some col)
    (hfail : cast col dt = none) :
    lookupKey c ((enforce_schema cast schema df).2).rows =
        some (col.dtype, "Conversion Failed")
    ∧ lookupKey c (enforce_schema cast schema df).1 = some col
    ∧ ∀ c2 dt2 col2, (c2, dt2) ∈ schema → lookupKey c2 df = some col2 →
        (lookupKey c2 ((enforce_schema cast schema df).2).rows).isSome := by
  have hne : schema ≠ [] := by
    intro h
    rw [h] at hmem
    exact absurd hmem (by simp)
  have hpair := enforce_schema_eq_fold cast schema df hne
  have hrows : ((enforce_schema cast schema df).2).rows =
      (schema.foldl (enforceStep cast (df.map fun p => (p.1, p.2.dtype))) (df, [])).2 := by
    rw [hpair]
    rfl
  have hdf1 : (enforce_schema cast schema df).1 =
      (schema.foldl (enforceStep cast (df.map fun p => (p.1, p.2.dtype))) (df, [])).1 := by
    rw [hpair]
  rw [hrows, hdf1]
  have hbt : lookupKey c (df.map fun p => (p.1, p.2.dtype)) = some col.dtype := by
    rw [lookupKey_beforeTypes, hcol]
    rfl
  have hentry := foldl_enforce_entry cast (df.map fun p => (p.1, p.2.dtype))
    schema df c dt col col.dtype hnd hmem hcol hbt
  refine ⟨(hentry.1 hfail).1, (hentry.1 hfail).2, ?_⟩
  intro c2 dt2 col2 hmem2 hcol2
  have hbt2 : lookupKey c2 (df.map fun p => (p.1, p.2.dtype)) = some col2.dtype := by
    rw [lookupKey_beforeTypes, hcol2]
    rfl
  have hentry2 := foldl_enforce_entry cast (df.map fun p => (p.1, p.2.dtype))
    schema df c2 dt2 col2 col2.dtype hnd hmem2 hcol2 hbt2
  cases hc : cast col2 dt2 with
  | none =>
      rw [(hentry2.1 hc).1]
      rfl
  | some col3 =>
      rw [(hentry2.2 col3 hc).1]
      rfl

/-- Closed witness for `enforce_schema_conversion_failed`: the spec scenario
where `dob` holds `"not-a-date"` and the schema declares `datetime64[ns]`. -/
theorem enforce_schema_conversion_failed_witness :
    lookupKey "dob" ((enforce_schema castNever schemaDob dfDob).2).rows =
        some ("object", "Conversion Failed")
    ∧ lookupKey "dob" (enforce_schema castNever schemaDob dfDob).1 =
        some ⟨"object", ["not-a-date"]⟩
    ∧ ∀ c2 dt2 col2, (c2, dt2) ∈ schemaDob → lookupKey c2 dfDob = some col2 →
        (lookupKey c2 ((enforce_schema castNever schemaDob dfDob).2).rows).isSome :=
  enforce_schema_conversion_failed castNever schemaDob dfDob "dob" "datetime64[ns]"
    ⟨"object", ["not-a-date"]⟩ (by decide) (by decide) (by decide) rfl

/-! ## `analysis/eda.py` — the column dispatcher

`ExploratoryDataAnalysis` mixes in the numerical, categorical and text
analyzers (lines 36–40; neither the datetime nor the missing-data mixin is in
the inheritance list) and dispatches each column on its stored dtype.  The
analyzer calls and the plot-saving loop run inside the per-column `try`; their
observable behaviour — an `AnalysisResult` or a raised exception — is passed
in abstractly as `RunAnalyzer`. -/

/-- Statistics payloads of an `AnalysisResult.summary`.  The statistical
formulas themselves are external to the dispatch core (spec section 1), so the
non-error summaries are kept symbolic over the column values they summarize. -/
inductive Stats where
  | errorKV (msg : String)
  | numericSummaryOf (values : List String)
  | categoricalSummaryOf (values : List String)
  | textSummaryOf (values : List String)
  deriving Repr, DecidableEq

/-- The `AnalysisResult` namedtuple of `analysis/lib.py` line 39: fields
`summary` (a `(title, statistics)` pair) and `plots`. -/
structure AnalysisResult where
  summary : String × Stats
  plots : List String
  deriving Repr, DecidableEq

/-- The value `analyze_column` stores for a column (eda.py lines 51–86):
`products.summary` on success, the skip dict `{"message": …}` (line 76), or
the error dict `{"error": str(e)}` (line 86). -/
inductive ColReport where
  | summary (s : String × Stats)
  | message (m : String)
  | error (e : String)
  deriving Repr, DecidableEq

/-- The three analyzers actually reachable from the `match dtype` statement
(lines 65–76): `summarize`, `categorize`, `analyze_text`.  There is no
datetime arm — `datetime64[ns]` falls to the catch-all. -/
inductive AnalyzerKind where
  | numeric
  | categorical
  | text
  deriving Repr, DecidableEq

/-- The closed type match of `analyze_column` (lines 65–76), in source order:
`"int64" | "float64"`, then `"category"`, then any dtype containing
`"string"` (e.g. `string[python]`), and otherwise no analyzer. -/
def dispatchKind (dtype : String) : Option AnalyzerKind :=
  if dtype = "int64" ∨ dtype = "float64" then some .numeric
  else if dtype = "category" then some .categorical
  else if "string".toList <:+: dtype.toList then some .text
  else none

/-- The observable behaviour of the routed analyzer call together with the
plot-saving loop (lines 67–80), both inside the `try`: an `AnalysisResult`,
or a raised exception carrying `str(e)`. -/
abbrev RunAnalyzer := AnalyzerKind → Column → Except String AnalysisResult

/-- `ExploratoryDataAnalysis.analyze_column` (lines 51–86).  `dtype` is read
before the `try`; the routed call runs inside it, so any exception is caught
at line 84 and wrapped as `{col: {"error": str(e)}}`, and unrouted dtypes
return the skip message of line 76.  The `none` branch of the column lookup
is unreachable from `explore`, which iterates the dataframe's own columns (in
the source a missing column would raise `KeyError` at `self.df[col]`, before
the `try`). -/
def analyze_column (run : RunAnalyzer) (df : Df) (col : String) :
    String × ColReport :=
  match lookupKey col df with
  | none => (col, .error "KeyError")
  | some column =>
      match dispatchKind column.dtype with
      | none => (col, .message ("Skipped analysis for " ++ column.dtype ++ " columns"))
      | some k =>
          match run k column with
          | .ok products => (col, .summary products.summary)
          | .error e => (col, .error e)

/-- Helper for `chunkList`: `k` is the remaining capacity of the chunk being
filled, `acc` the chunk collected so far in reverse. -/
def chunksGo (c : Nat) : Nat → List α → List α → List (List α)
  | _, acc, [] => [acc.reverse]
  | 0, acc, x :: xs => acc.reverse :: chunksGo c (c - 1) [x] xs
  | k + 1, acc, x :: xs => chunksGo c k (x :: acc) xs

/-- Split a list into consecutive chunks of size `c` (for `c ≥ 1`), the way
`multiprocessing.Pool.imap(func, iterable, chunksize)` batches its input. -/
def chunkList (c : Nat) (xs : List α) : List (List α) :=
  match xs with
  | [] => []
  | x :: xs => chunksGo c (c - 1) [x] xs

/-- One completion event per finished chunk: the chunk index paired with the
chunk's mapped results.  `order` is the order in which pool workers finish
chunks — in any run of the pool, a permutation of the chunk indices. -/
def completionEvents (tasks : List (List β)) (order : List Nat) :
    List (Nat × List β) :=
  order.filterMap (fun i => (tasks.get? i).map (fun r => (i, r)))

/-- `Pool.imap` semantics: however the workers interleave, the iterator
yields chunk results in input-index order; `none` only if some chunk never
completes, which cannot happen when `order` is a permutation. -/
def imapModel (f : α → β) (c : Nat) (xs : List α) (order : List Nat) :
    Option (List β) :=
  let tasks := (chunkList c xs).map (List.map f)
  ((List.range tasks.length).mapM
      (fun i => lookupKey i (completionEvents tasks order))).map List.flatten

/-- Python dict insertion: overwrite in place when the key exists, append
otherwise. -/
def dictInsert (d : List (String × α)) (k : String) (v : α) : List (String × α) :=
  if (lookupKey k d).isSome then
    d.map (fun p => if p.1 = k then (k, v) else p)
  else d ++ [(k, v)]

/-- The fan-in dict comprehension of line 107:
`{col: result[col] for result in results for col in result}`, where each
worker result is the singleton dict returned by `analyze_column`. -/
def buildReport (results : List (String × ColReport)) : List (String × ColReport) :=
  results.foldl (fun d r => dictInsert d r.1 r.2) []

/-- `ExploratoryDataAnalysis.explore` (lines 88–112).  `cpuCount` stands for
`mp.cpu_count()` (at least 1 on any machine) and `order` for the chunk
completion order of the pool.  For a zero-column dataframe `num_workers = 0`,
and line 94 `len(column_list) // (num_workers * 2)` raises
`ZeroDivisionError`; Lean division is total, so the raise is modelled by the
explicit guard.  `Pool.imap` (line 99) yields results in input order. -/
def explore (run : RunAnalyzer) (df : Df) (cpuCount : Nat) (order : List Nat) :
    Except String (List (String × ColReport)) :=
  let columnList := df.map Prod.fst
  let numWorkers := min cpuCount columnList.length
  if numWorkers * 2 = 0 then
    .error "ZeroDivisionError: integer division or modulo by zero"
  else
    let chunksize := max 1 (columnList.length / (numWorkers * 2))
    match imapModel (analyze_column run df) chunksize columnList order with
    | none => .error "imap did not complete"
    | some results => .ok (buildReport results)

/-! ### Ordering lemmas for the dispatcher -/

theorem chunksGo_flatten (c : Nat) :
    ∀ (xs acc : List α) (k : Nat), (chunksGo c k acc xs).flatten = acc.reverse ++ xs := by
  intro xs
  induction xs with
  | nil =>
      intro acc k
      cases k <;> simp [chunksGo]
  | cons x xs ih =>
      intro acc k
      cases k with
      | zero =>
          rw [chunksGo]
          rw [List.flatten_cons, ih [x] (c - 1)]
          simp
      | succ k =>
          rw [chunksGo, ih (x :: acc) k]
          simp

theorem chunkList_flatten (c : Nat) (xs : List α) :
    (chunkList c xs).flatten = xs := by
  cases xs with
  | nil => rfl
  | cons x xs =>
      rw [chunkList, chunksGo_flatten]
      simp

theorem lookupKey_completionEvents (tasks : List (List β)) (order : List Nat)
    (i : Nat) (t : List β) (hi : i ∈ order) (ht : tasks.get? i = some t) :
    lookupKey i (completionEvents tasks order) = some t := by
  induction order with
  | nil => exact absurd hi (by simp)
  | cons j order ih =>
      rw [completionEvents, List.filterMap_cons]
      by_cases hij : j = i
      · rw [hij, ht]
        show lookupKey i ((i, t) :: _) = some t
        rw [lookupKey, if_pos rfl]
      · have hi2 : i ∈ order := by
          rcases List.mem_cons.mp hi with h | h
          · exact absurd h.symm hij
          · exact h
        cases hj : tasks.get? j with
        | none => exact ih hi2
        | some r =>
            show lookupKey i ((j, r) :: _) = some t
            rw [lookupKey, if_neg hij]
            exact ih hi2

theorem mapM_eq_map (l : List Nat) (f : Nat → Option β) (g : Nat → β)
    (h : ∀ i ∈ l, f i = some (g i)) : l.mapM f = some (l.map g) := by
  induction l with
  | nil => rfl
  | cons a l ih =>
      rw [List.mapM_cons, h a (List.mem_cons_self a l),
        ih (fun i hi => h i (List.mem_cons_of_mem a hi))]
      rfl

theorem range_map_getD (ts : List β) (d : β) :
    (List.range ts.length).map (fun i => (ts.get? i).getD d) = ts := by
  induction ts with
  | nil => rfl
  | cons t ts ih =>
      rw [List.length_cons, List.range_succ_eq_map, List.map_cons, List.map_map]
      have hcomp : ((fun i => ((t :: ts).get? i).getD d) ∘ Nat.succ)
          = fun i => (ts.get? i).getD d := by
        funext i
        rfl
      rw [hcomp, ih]
      rfl

/-- Whatever the chunk size and whatever order the workers finish chunks in,
the `imap` fan-in reproduces the sequential map over the input order. -/
theorem imapModel_perm (f : α → β) (c : Nat) (xs : List α) (order : List Nat)
    (hperm : order.Perm (List.range (chunkList c xs).length)) :
    imapModel f c xs order = some (xs.map f) := by
  have hlen : ((chunkList c xs).map (List.map f)).length = (chunkList c xs).length := by
    simp
  have hmapM : (List.range ((chunkList c xs).map (List.map f)).length).mapM
      (fun i => lookupKey i
        (completionEvents ((chunkList c xs).map (List.map f)) order))
      = some ((List.range ((chunkList c xs).map (List.map f)).length).map
          (fun i => (((chunkList c xs).map (List.map f)).get? i).getD [])) := by
    apply mapM_eq_map
    intro i hi
    have hilt : i < ((chunkList c xs).map (List.map f)).length := List.mem_range.mp hi
    cases hget : ((chunkList c xs).map (List.map f)).get? i with
    | none =>
        have := List.get?_eq_none.mp hget
        omega
    | some t =>
        have hio : i ∈ order := by
          rw [hperm.mem_iff, List.mem_range, ← hlen]
          exact hilt
        rw [lookupKey_completionEvents _ order i t hio hget]
        rfl
  rw [imapModel, hmapM, range_map_getD]
  show some (((chunkList c xs).map (List.map f)).flatten) = some (xs.map f)
  rw [← List.map_flatten, chunkList_flatten]

theorem analyze_column_fst (run : RunAnalyzer) (df : Df) (col : String) :
    (analyze_column run df col).1 = col := by
  cases h1 : lookupKey col df with
  | none => simp [analyze_column, h1]
  | some column =>
      cases h2 : dispatchKind column.dtype with
      | none => simp [analyze_column, h1, h2]
      | some k =>
          cases h3 : run k column with
          | ok products => simp [analyze_column, h1, h2, h3]
          | error e => simp [analyze_column, h1, h2, h3]

theorem lookupKey_isSome_mem (l : List (String × α)) (c : String) (v : α)
    (h : lookupKey c l = some v) : c ∈ l.map Prod.fst := by
  induction l with
  | nil => exact absurd h (by simp [lookupKey])
  | cons p l ih =>
      rw [lookupKey] at h
      by_cases hpc : p.1 = c
      · rw [List.map_cons, hpc]
        exact List.mem_cons_self c _
      · rw [if_neg hpc] at h
        exact List.mem_cons_of_mem _ (ih h)

/-- Looking up `c` in a list of entries produced by a key-preserving function
finds that function's value at `c`. -/
theorem lookupKey_map_keyed (F : String → String × β) (hF : ∀ c, (F c).1 = c)
    (l : List String) (c : String) (hc : c ∈ l) :
    lookupKey c (l.map F) = some (F c).2 := by
  induction l with
  | nil => exact absurd hc (by simp)
  | cons a l ih =>
      rw [List.map_cons, lookupKey]
      by_cases hac : (F a).1 = c
      · rw [if_pos hac]
        have : a = c := by rw [← hF a, hac]
        rw [this]
      · rw [if_neg hac]
        have : a ≠ c := fun h => hac (by rw [hF a, h])
        exact ih (by
          rcases List.mem_cons.mp hc with h | h
          · exact absurd h.symm this
          · exact h)

/-- Folding Python dict insertion over entries with fresh, pairwise-distinct
keys just appends them. -/
theorem foldl_dictInsert (results : List (String × α)) :
    ∀ (acc : List (String × α)),
    (∀ p ∈ results, lookupKey p.1 acc = (none : Option α)) →
    (results.map Prod.fst).Nodup →
    results.foldl (fun d r => dictInsert d r.1 r.2) acc = acc ++ results := by
  induction results with
  | nil => intro acc _ _; simp
  | cons r rs ih =>
      intro acc hfresh hnd
      rw [List.map_cons, List.nodup_cons] at hnd
      rw [List.foldl_cons]
      have hins : dictInsert acc r.1 r.2 = acc ++ [r] := by
        rw [dictInsert, hfresh r (List.mem_cons_self r rs)]
        rfl
      rw [hins]
      have hfresh2 : ∀ p ∈ rs, lookupKey p.1 (acc ++ [r]) = (none : Option α) := by
        intro p hp
        rw [lookupKey_append, hfresh p (List.mem_cons_of_mem r hp)]
        show lookupKey p.1 [r] = none
        rw [lookupKey, if_neg, lookupKey]
        intro h
        exact hnd.1 (h ▸ List.mem_map.mpr ⟨p, hp, rfl⟩)
      rw [ih (acc ++ [r]) hfresh2 hnd.2, List.append_assoc]
      rfl

/-- On results with pairwise-distinct keys (columns of a dataframe), the
fan-in dict comprehension returns exactly the ordered result sequence. -/
theorem buildReport_nodup (results : List (String × ColReport))
    (h : (results.map Prod.fst).Nodup) : buildReport results = results := by
  rw [buildReport, foldl_dictInsert results [] (fun p _ => rfl) h]
  rfl

/-- Common description of a successful dispatch run: with at least one column,
at least one CPU, and any chunk-completion permutation, `explore` returns the
per-column results in exactly the dataframe's column order. -/
theorem explore_ok (run : RunAnalyzer) (df : Df) (cpu : Nat) (order : List Nat)
    (hdf : df ≠ []) (hcpu : 1 ≤ cpu)
    (hnd : (df.map Prod.fst).Nodup)
    (hperm : order.Perm (List.range (chunkList
        (max 1 ((df.map Prod.fst).length / (min cpu (df.map Prod.fst).length * 2)))
        (df.map Prod.fst)).length)) :
    explore run df cpu order =
      .ok ((df.map Prod.fst).map (fun c => analyze_column run df c)) := by
  have hpos : 0 < (df.map Prod.fst).length := by
    cases df with
    | nil => exact absurd rfl hdf
    | cons p df => simp
  have hw : ¬ (min cpu (df.map Prod.fst).length * 2 = 0) := by
    have : 0 < min cpu (df.map Prod.fst).length := lt_min (by omega) hpos
    omega
  have himap := imapModel_perm (analyze_column run df)
    (max 1 ((df.map Prod.fst).length / (min cpu (df.map Prod.fst).length * 2)))
    (df.map Prod.fst) order hperm
  have hif : explore run df cpu order =
      match imapModel (analyze_column run df)
          (max 1 ((df.map Prod.fst).length / (min cpu (df.map Prod.fst).length * 2)))
          (df.map Prod.fst) order with
      | none => Except.error "imap did not complete"
      | some results => Except.ok (buildReport results) := by
    simp only [explore]
    rw [if_neg hw]
  rw [hif, himap]
  have hkeys : (((df.map Prod.fst).map (fun c => analyze_column run df c)).map Prod.fst)
      = df.map Prod.fst := by
    rw [List.map_map]
    have hcomp : (Prod.fst ∘ fun c => analyze_column run df c) = fun c : String => c := by
      funext c
      exact analyze_column_fst run df c
    rw [hcomp]
    simp
  have hbuild := buildReport_nodup ((df.map Prod.fst).map (fun c => analyze_column run df c))
    (by rw [hkeys]; exact hnd)
  show Except.ok (buildReport ((df.map Prod.fst).map (fun c => analyze_column run df c))) = _
  rw [hbuild]

/-! ### Concrete inputs for the dispatcher claims -/

/-- An analyzer behaviour that always succeeds with a symbolic summary. -/
def runStub : RunAnalyzer := fun _ col =>
  .ok ⟨("Analysis", Stats.numericSummaryOf col.values), []⟩

/-- An analyzer behaviour that always raises. -/
def runRaises : RunAnalyzer := fun _ _ => .error "boom"

/-- The two-column dataset of the spec scenario (section 8). -/
def dfAgeGender : Df :=
  [("age", ⟨"int64", ["20", "30"]⟩), ("gender", ⟨"category", ["M", "F"]⟩)]

/-- A single datetime column, post-enforcement. -/
def dfDatetime : Df := [("dob", ⟨"datetime64[ns]", ["2024-01-01"]⟩)]

/-- C2 counterexample: on a zero-column dataset `explore` does not return a
result sequence at all — `num_workers = min(cpu_count(), 0) = 0` and line 94
`len(column_list) // (num_workers * 2)` raises `ZeroDivisionError` before the
pool is even created. -/
theorem explore_empty_df_cex :
    explore runStub ([] : Df) 4 [] =
      Except.error "ZeroDivisionError: integer division or modulo by zero" := by
  rfl

/-- C2 (amended): for every dataset with at least one column, `explore`
returns per-column results in exactly `df.columns` order, and the sequence is
the same for every CPU count, every chunk-completion order, and every chunk
size — `Pool.imap` reorders chunk results to input order at fan-in.  (A
zero-column dataset instead raises `ZeroDivisionError` computing the chunk
size.) -/
theorem explore_preserves_column_order (run : RunAnalyzer) (df : Df) (cpu : Nat)
    (order : List Nat) (hdf : df ≠ []) (hcpu : 1 ≤ cpu)
    (hnd : (df.map Prod.fst).Nodup)
    (hperm : order.Perm (List.range (chunkList
        (max 1 ((df.map Prod.fst).length / (min cpu (df.map Prod.fst).length * 2)))
        (df.map Prod.fst)).length)) :
    explore run df cpu order =
      .ok ((df.map Prod.fst).map (fun c => analyze_column run df c))
    ∧ ∀ (c2 : Nat) (order2 : List Nat), 1 ≤ c2 →
        order2.Perm (List.range (chunkList c2 (df.map Prod.fst)).length) →
        imapModel (analyze_column run df) c2 (df.map Prod.fst) order2 =
          some ((df.map Prod.fst).map (fun c => analyze_column run df c)) := by
  refine ⟨explore_ok run df cpu order hdf hcpu hnd hperm, ?_⟩
  intro c2 order2 _ hperm2
  exact imapModel_perm (analyze_column run df) c2 (df.map Prod.fst) order2 hperm2

/-- Closed witness for `explore_preserves_column_order`: two columns, four
CPUs, and the two unit chunks completing in reversed order. -/
theorem explore_preserves_column_order_witness :
    explore runStub dfAgeGender 4 [1, 0] =
      .ok ((dfAgeGender.map Prod.fst).map (fun c => analyze_column runStub dfAgeGender c))
    ∧ ∀ (c2 : Nat) (order2 : List Nat), 1 ≤ c2 →
        order2.Perm (List.range (chunkList c2 (dfAgeGender.map Prod.fst)).length) →
        imapModel (analyze_column runStub dfAgeGender) c2 (dfAgeGender.map Prod.fst) order2 =
          some ((dfAgeGender.map Prod.fst).map (fun c => analyze_column runStub dfAgeGender c)) :=
  explore_preserves_column_order runStub dfAgeGender 4 [1, 0]
    (by decide) (by decide) (by decide) (by decide)

/-- C3: an exception raised during one column's analysis is caught at the
per-column boundary (eda.py line 84) and becomes `{col: {"error": str(e)}}`;
it does not propagate, and `explore` still produces a result for every
column. -/
theorem analyze_column_error_isolated (run : RunAnalyzer) (df : Df) (cpu : Nat)
    (order : List Nat) (col : String) (column : Column) (k : AnalyzerKind) (e : String)
    (hdf : df ≠ []) (hcpu : 1 ≤ cpu) (hnd : (df.map Prod.fst).Nodup)
    (hperm : order.Perm (List.range (chunkList
        (max 1 ((df.map Prod.fst).length / (min cpu (df.map Prod.fst).length * 2)))
        (df.map Prod.fst)).length))
    (hcol : lookupKey col df = some column)
    (hk : dispatchKind column.dtype = some k)
    (herr : run k column = .error e) :
    analyze_column run df col = (col, ColReport.error e)
    ∧ explore run df cpu order =
        .ok ((df.map Prod.fst).map (fun c => analyze_column run df c))
    ∧ lookupKey col ((df.map Prod.fst).map (fun c => analyze_column run df c)) =
        some (ColReport.error e)
    ∧ ∀ c ∈ df.map Prod.fst,
        lookupKey c ((df.map Prod.fst).map (fun c2 => analyze_column run df c2)) =
          some (analyze_column run df c).2 := by
  have h1 : analyze_column run df col = (col, ColReport.error e) := by
    simp [analyze_column, hcol, hk, herr]
  refine ⟨h1, explore_ok run df cpu order hdf hcpu hnd hperm, ?_, ?_⟩
  · have hmem := lookupKey_isSome_mem df col column hcol
    rw [lookupKey_map_keyed (fun c => analyze_column run df c)
        (analyze_column_fst run df) (df.map Prod.fst) col hmem, h1]
  · intro c hc
    exact lookupKey_map_keyed (fun c2 => analyze_column run df c2)
      (analyze_column_fst run df) (df.map Prod.fst) c hc

/-- Closed witness for `analyze_column_error_isolated`: the analyzer for
`age` raises, the error is wrapped, and `gender` still gets its result. -/
theorem analyze_column_error_isolated_witness :
    analyze_column runRaises dfAgeGender "age" = ("age", ColReport.error "boom")
    ∧ explore runRaises dfAgeGender 1 [0, 1] =
        .ok ((dfAgeGender.map Prod.fst).map (fun c => analyze_column runRaises dfAgeGender c))
    ∧ lookupKey "age" ((dfAgeGender.map Prod.fst).map
          (fun c => analyze_column runRaises dfAgeGender c)) =
        some (ColReport.error "boom")
    ∧ ∀ c ∈ dfAgeGender.map Prod.fst,
        lookupKey c ((dfAgeGender.map Prod.fst).map
            (fun c2 => analyze_column runRaises dfAgeGender c2)) =
          some (analyze_column runRaises dfAgeGender c).2 :=
  analyze_column_error_isolated runRaises dfAgeGender 1 [0, 1] "age"
    ⟨"int64", ["20", "30"]⟩ AnalyzerKind.numeric "boom"
    (by decide) (by decide) (by decide) (by decide) (by decide) (by decide) rfl

/-- C4 counterexample: the closed dispatch has no datetime arm (the datetime
mixin of `analysis/datetime/mixins.py` is not in the inheritance list of
`ExploratoryDataAnalysis`, eda.py lines 36–40, and no `match` arm routes to
it), so a `datetime64[ns]` column produces the skipped-type outcome rather
than a datetime `AnalysisResult`. -/
theorem analyze_column_datetime_cex :
    dispatchKind "datetime64[ns]" = none
    ∧ analyze_column runStub dfDatetime "dob" =
        ("dob", ColReport.message "Skipped analysis for datetime64[ns] columns") := by
  decide

/-- C4 (amended): every column whose post-enforcement stored dtype is
`datetime64[ns]` falls through the closed match (which covers only
int64/float64, category, and string-containing dtypes) and yields
`{"message": "Skipped analysis for datetime64[ns] columns"}`, for any
analyzer behaviour. -/
theorem analyze_column_datetime_skipped (run : RunAnalyzer) (df : Df)
    (col : String) (column : Column)
    (hcol : lookupKey col df = some column)
    (hdt : column.dtype = "datetime64[ns]") :
    analyze_column run df col =
      (col, ColReport.message "Skipped analysis for datetime64[ns] columns") := by
  have hnone : dispatchKind "datetime64[ns]" = none := by decide
  simp [analyze_column, hcol, hdt, hnone]

/-- Closed witness for `analyze_column_datetime_skipped`. -/
theorem analyze_column_datetime_skipped_witness :
    analyze_column runStub dfDatetime "dob" =
      ("dob", ColReport.message "Skipped analysis for datetime64[ns] columns") :=
  analyze_column_datetime_skipped runStub dfDatetime "dob"
    ⟨"datetime64[ns]", ["2024-01-01"]⟩ (by decide) rfl

/-! ## `analysis/numerical/mixins.py` — `numerical_summary` (lines 23–60)

The empty-column branch (lines 35–40) calls
`AnalysisResult(summary=("Numerical Analysis", {"error": "Column is empty"}),
plot_paths=[])`, but the namedtuple declared at `analysis/lib.py` line 39 has
fields `summary` and `plots` — there is no `plot_paths` field, so CPython
raises `TypeError` at the constructor call and the intended non-fatal result
is never built.  (The categorical and text mixins have the same empty-branch
call.)  The non-empty branch computes pandas statistics (external, symbolic
here) and returns the two plot paths `{name}_distribution.png` and
`{name}_boxplot.png` joined to the output directory. -/

/-- A pandas Series: its name and cell values (`series.empty` iff none). -/
structure Series where
  name : String
  values : List String
  deriving Repr, DecidableEq

/-- Python exceptions distinguished by the claims. -/
inductive PyErr where
  | typeError (msg : String)
  | valueError (msg : String)
  deriving Repr, DecidableEq

/-- `NumericalAnalysisMixin.numerical_summary`.  `Except.error` models an
exception escaping the analyzer. -/
def numerical_summary (series : Series) (outputDir : String) :
    Except PyErr AnalysisResult :=
  if series.values.isEmpty then
    .error (.typeError "__new__() got an unexpected keyword argument plot_paths")
  else
    .ok { summary := ("Numerical Analysis of " ++ series.name,
            Stats.numericSummaryOf series.values),
          plots := [outputDir ++ "/" ++ series.name ++ "_distribution.png",
                    outputDir ++ "/" ++ series.name ++ "_boxplot.png"] }

/-- C5 (code bug): an empty numerical column does not yield the non-fatal
`AnalysisResult` with statistics `{"error": "Column is empty"}` and no
artifacts — the empty branch passes the keyword `plot_paths`, which is not a
field of the `AnalysisResult` namedtuple (`summary`, `plots`; lib.py line
39), so a `TypeError` escapes `numerical_summary` instead of any result
being returned. -/
theorem numerical_summary_empty_raises :
    numerical_summary ⟨"age", []⟩ "out" =
      Except.error (PyErr.typeError
        "__new__() got an unexpected keyword argument plot_paths")
    ∧ ∀ (title : String),
        numerical_summary ⟨"age", []⟩ "out" ≠
          Except.ok ⟨(title, Stats.errorKV "Column is empty"), []⟩ := by
  constructor
  · rfl
  · intro title
    simp [numerical_summary]

/-! ## `unified_report.py` — the report accumulator (C7) -/

/-- The content state of a `UnifiedReport` instance (`__init__`, lines
34–57): the title content dict, the schema-enforcement table, and the ordered
`analysis_pages` list.  The PDF backend handle (`self.pdf_pages`) is an
external resource; note the source keeps no field recording whether
finalization happened. -/
structure UnifiedReport where
  output : String
  datasetName : String
  titlePage : List (String × String)
  schemaPage : List ReportRow
  analysisPages : List AnalysisResult
  deriving Repr, DecidableEq

/-- The runtime argument of `load_analysis_page_content`, as the `isinstance`
check sees it. -/
inductive PyObj where
  | result (r : AnalysisResult)
  | other (reprStr : String)
  deriving Repr, DecidableEq

/-- `UnifiedReport.load_analysis_page_content` (lines 100–111): type-check
the argument, then append to `analysis_pages` — unconditionally; no
closed-for-writes state exists to consult. -/
def load_analysis_page_content (s : UnifiedReport) (arg : PyObj) :
    Except PyErr UnifiedReport :=
  match arg with
  | .other _ => .error (.typeError "Expected analysis_result to be an AnalysisResult.")
  | .result r => .ok { s with analysisPages := s.analysisPages ++ [r] }

/-- `UnifiedReport.finalize_section` (lines 113–115): the body is one log
call; it reads and writes no state. -/
def finalize_section (s : UnifiedReport) : UnifiedReport := s

/-- `UnifiedReport.export_to_pdf` (lines 117–134): renders the accumulated
sections through the external PDF backend and closes the file handle; it
consults no finalization state and performs no usage-error check, leaving
the accumulator content unchanged.  (Rendering itself is the excluded
plotting backend.) -/
def export_to_pdf (s : UnifiedReport) : Except PyErr UnifiedReport := .ok s

/-- A concrete `AnalysisResult` page. -/
def ar0 : AnalysisResult :=
  ⟨("Numerical Analysis of age", Stats.numericSummaryOf ["20"]), []⟩

/-- A concrete report accumulator state. -/
def ur0 : UnifiedReport := ⟨"out", "sample.csv", [("timestamp", "t0")], [], []⟩

/-- C7 counterexample: `finalize_section` is a pure no-op, so it closes
nothing: accumulating after finalize succeeds and appends (it is not
rejected as a usage error), and exporting before any finalize succeeds
likewise. -/
theorem finalize_section_not_closing_cex :
    finalize_section ur0 = ur0
    ∧ load_analysis_page_content (finalize_section ur0) (PyObj.result ar0) =
        Except.ok { ur0 with analysisPages := ur0.analysisPages ++ [ar0] }
    ∧ export_to_pdf ur0 = Except.ok ur0 :=
  ⟨rfl, rfl, rfl⟩

/-- C7 (amended): `finalize_section` performs no state transition and the
accumulator has no closed-for-writes state: `load_analysis_page_content`
appends whenever given an `AnalysisResult`, identically before and after
`finalize_section`, and `export_to_pdf` is not gated on finalization. -/
theorem finalize_section_noop (s : UnifiedReport) (r : AnalysisResult) :
    finalize_section s = s
    ∧ load_analysis_page_content s (PyObj.result r) =
        Except.ok { s with analysisPages := s.analysisPages ++ [r] }
    ∧ load_analysis_page_content (finalize_section s) (PyObj.result r) =
        load_analysis_page_content s (PyObj.result r)
    ∧ export_to_pdf (finalize_section s) = export_to_pdf s :=
  ⟨rfl, rfl, rfl, rfl⟩

/-! ## JSON export — `json_report_handler.py` lines 70–88 / eda.py lines 159–175 (C8)

Both `save_report` methods serialize the accumulated report with
`json.dumps(report, indent=4, default=lambda x: x.item() if
isinstance(x, np.generic) else str(x))`.  The encoder emits JSON-native
values directly, recurses into containers, and calls `default` on any value
it cannot serialize, re-serializing the returned value; report mappings are
string-keyed (`report_data: dict[str, dict[str, Any]]`).  `np.generic.item()`
returns the scalar's built-in Python equivalent, a primitive, so one
`default` application always suffices — its result type is therefore fixed
to a primitive here. -/

/-- A JSON-native primitive.  Numbers are carried opaquely (ints exactly,
floats by their literal form): no claim computes with them. -/
inductive JPrim where
  | jnull
  | jbool (b : Bool)
  | jint (n : Int)
  | jfloat (lit : String)
  | jstr (s : String)
  deriving Repr, DecidableEq

/-- A Python value as it can appear inside an accumulated report. -/
inductive PyVal where
  | prim (p : JPrim)
  | npgeneric (p : JPrim)
  | obj (reprStr : String)
  | list (xs : List PyVal)
  | dict (entries : List (String × PyVal))
  deriving Repr

/-- A serialized JSON value: primitives, arrays, string-keyed objects. -/
inductive JVal where
  | prim (p : JPrim)
  | arr (xs : List JVal)
  | obj (entries : List (String × JVal))
  deriving Repr

/-- `str(x)` for values the `default` lambda can receive.  The encoder only
hands it values it cannot serialize itself (NumPy scalars and foreign
objects); the remaining arms are unreachable from the encoder and carry
their display strings. -/
def pyStr : PyVal → String
  | .obj r => r
  | .prim (.jstr str) => str
  | .prim (.jint n) => toString n
  | .prim (.jfloat lit) => lit
  | .prim (.jbool b) => if b then "True" else "False"
  | .prim .jnull => "None"
  | .npgeneric _ => "<np scalar>"
  | .list _ => "<list>"
  | .dict _ => "<dict>"

/-- The `default=` lambda:
`x.item() if isinstance(x, np.generic) else str(x)` — unwrap a NumPy scalar
to its built-in value, stringify anything else. -/
def reportDefault : PyVal → JPrim
  | .npgeneric p => p
  | x => .jstr (pyStr x)

mutual

/-- The JSON encoder: native values pass through, containers recurse, and a
non-serializable value (NumPy scalar or other foreign object) is replaced by
the primitive a given `default` returns — or, with no `default`, `json.dumps`
raises `TypeError: Object of type ... is not JSON serializable`. -/
def encodeVal (dflt : Option (PyVal → JPrim)) : PyVal → Except PyErr JVal
  | .prim p => .ok (.prim p)
  | .npgeneric p =>
      match dflt with
      | none => .error (.typeError "Object of type np.generic is not JSON serializable")
      | some d => .ok (.prim (d (.npgeneric p)))
  | .obj r =>
      match dflt with
      | none => .error (.typeError "Object is not JSON serializable")
      | some d => .ok (.prim (d (.obj r)))
  | .list xs =>
      match encodeList dflt xs with
      | .ok js => .ok (.arr js)
      | .error e => .error e
  | .dict es =>
      match encodeEntries dflt es with
      | .ok js => .ok (.obj js)
      | .error e => .error e

/-- Elementwise encoding of a JSON array, failing on the first bad element. -/
def encodeList (dflt : Option (PyVal → JPrim)) : List PyVal → Except PyErr (List JVal)
  | [] => .ok []
  | x :: xs =>
      match encodeVal dflt x, encodeList dflt xs with
      | .ok j, .ok js => .ok (j :: js)
      | .error e, _ => .error e
      | _, .error e => .error e

/-- Entrywise encoding of a string-keyed mapping. -/
def encodeEntries (dflt : Option (PyVal → JPrim)) :
    List (String × PyVal) → Except PyErr (List (String × JVal))
  | [] => .ok []
  | (k, v) :: es =>
      match encodeVal dflt v, encodeEntries dflt es with
      | .ok j, .ok js => .ok ((k, j) :: js)
      | .error e, _ => .error e
      | _, .error e => .error e

end

/-- `json.dumps(report, indent=4, default=...)` exactly as both `save_report`
methods call it. -/
def save_report_dumps (v : PyVal) : Except PyErr JVal :=
  encodeVal (some reportDefault) v

mutual

/-- With any `default` installed, the encoder accepts every value. -/
theorem encodeVal_ok (d : PyVal → JPrim) :
    (v : PyVal) → ∃ j, encodeVal (some d) v = Except.ok j
  | .prim p => ⟨.prim p, by simp [encodeVal]⟩
  | .npgeneric p => ⟨.prim (d (.npgeneric p)), by simp [encodeVal]⟩
  | .obj r => ⟨.prim (d (.obj r)), by simp [encodeVal]⟩
  | .list xs => by
      obtain ⟨js, hjs⟩ := encodeList_ok d xs
      exact ⟨.arr js, by simp [encodeVal, hjs]⟩
  | .dict es => by
      obtain ⟨js, hjs⟩ := encodeEntries_ok d es
      exact ⟨.obj js, by simp [encodeVal, hjs]⟩

theorem encodeList_ok (d : PyVal → JPrim) :
    (xs : List PyVal) → ∃ js, encodeList (some d) xs = Except.ok js
  | [] => ⟨[], by simp [encodeList]⟩
  | x :: xs => by
      obtain ⟨j, hj⟩ := encodeVal_ok d x
      obtain ⟨js, hjs⟩ := encodeList_ok d xs
      exact ⟨j :: js, by simp [encodeList, hj, hjs]⟩

theorem encodeEntries_ok (d : PyVal → JPrim) :
    (es : List (String × PyVal)) → ∃ js, encodeEntries (some d) es = Except.ok js
  | [] => ⟨[], by simp [encodeEntries]⟩
  | (k, v) :: es => by
      obtain ⟨j, hj⟩ := encodeVal_ok d v
      obtain ⟨js, hjs⟩ := encodeEntries_ok d es
      exact ⟨(k, j) :: js, by simp [encodeEntries, hj, hjs]⟩

end

/-- C8: with the `default` lambda installed, serialization never fails on a
non-primitive value; every NumPy scalar is unwrapped to its plain value
(also inside nested mappings) and every other non-primitive is serialized as
its string representation — while the bare encoder, without the lambda,
rejects a NumPy scalar. -/
theorem save_report_normalizes :
    (∀ v : PyVal, ∃ j : JVal, save_report_dumps v = Except.ok j)
    ∧ (∀ p : JPrim, save_report_dumps (.npgeneric p) = .ok (.prim p))
    ∧ (∀ r : String, save_report_dumps (.obj r) = .ok (.prim (.jstr r)))
    ∧ (∀ (k : String) (p : JPrim),
        save_report_dumps (.dict [(k, .npgeneric p)]) = .ok (.obj [(k, .prim p)]))
    ∧ (∀ p : JPrim, encodeVal none (.npgeneric p) =
        .error (.typeError "Object of type np.generic is not JSON serializable")) := by
  refine ⟨fun v => encodeVal_ok reportDefault v, fun p => ?_, fun r => ?_,
    fun k p => ?_, fun p => ?_⟩
  · simp [save_report_dumps, encodeVal, reportDefault]
  · simp [save_report_dumps, encodeVal, reportDefault, pyStr]
  · simp [save_report_dumps, encodeVal, encodeEntries, reportDefault]
  · simp [encodeVal]

/-! ## `cast_schema.py` — `SchemaHandler.create_interactive_schema` (lines 160–231, C9) -/

/-- `SchemaHandler.DTYPE_OPTIONS` (lines 28–37): the eight offered dtypes
with their menu hints, in menu order. -/
def DTYPE_OPTIONS : List (String × String) := [
  ("int64", "Whole numbers (e.g., 1, 2, 3). No decimals."),
  ("float64", "Decimal numbers (e.g., 3.14, 42.0, -0.99)."),
  ("bool", "True/False or Yes/No values."),
  ("string", "Text data (e.g., names, emails, IDs)."),
  ("category", "Limited set of unique labels (e.g., Male/Female, Small/Medium/Large)."),
  ("datetime64[ns]", "Timestamps or dates (e.g., 2024-02-17, 12:30 PM)."),
  ("timedelta64[ns]", "Time differences (e.g., 5 days, 3 hours)."),
  ("object", "Mixed data types, unstructured text, or complex objects.")]

/-- Python `str.strip()`: drop leading and trailing whitespace.  (Defined
over the character list; `String.trim` itself is implemented on byte
positions.) -/
def pyStrip (s : String) : String :=
  String.mk (((s.toList.dropWhile Char.isWhitespace).reverse.dropWhile
    Char.isWhitespace).reverse)

/-- Python `str.isdigit` on menu input (ASCII digits in this embedding). -/
def pyIsDigit (s : String) : Bool := !s.isEmpty && s.toList.all Char.isDigit

/-- `int(s)` for a digit string. -/
def pyToNat (s : String) : Nat :=
  s.toList.foldl (fun n c => n * 10 + (c.toNat - 48)) 0

/-- The `while True` prompt loop for one column (lines 211–224): strip the
line; a number in `1..len(DTYPE_OPTIONS)` selects that menu key, an empty
line keeps the detected dtype, anything else re-prompts on the next line.
`none` models the `EOFError` that `input()` raises on an exhausted stream.
The `getD` fallback is unreachable: the guard bounds the index. -/
def chooseDtype (detected : String) : List String → Option (String × List String)
  | [] => none
  | line :: rest =>
      let choice := (pyStrip line)
      if pyIsDigit choice ∧ 1 ≤ pyToNat choice ∧ pyToNat choice ≤ DTYPE_OPTIONS.length then
        some ((DTYPE_OPTIONS.map Prod.fst).getD (pyToNat choice - 1) "", rest)
      else if choice = "" then some (detected, rest)
      else chooseDtype detected rest

/-- The per-column collection loop (lines 202–224) over `(column, detected
dtype)` pairs, threading the operator input stream; `self.schema` collects
the columns as keys in dataframe order. -/
def collectSchema : List (String × String) → List String → Option (List (String × String))
  | [], _ => some []
  | (col, det) :: cols, inp =>
      match chooseDtype det inp with
      | none => none
      | some (t, rest) =>
          match collectSchema cols rest with
          | none => none
          | some schema => some ((col, t) :: schema)

/-- `SchemaHandler.create_interactive_schema` (lines 160–231): the filename
prompt consumes the first input line (line 196), then one dtype choice is
collected per dataframe column.  Writing the schema JSON to disk (lines
227–228) is an external side effect with no bearing on the schema contents. -/
def create_interactive_schema (df : Df) (inputLines : List String) :
    Option (List (String × String)) :=
  match inputLines with
  | [] => none
  | _filenameChoice :: rest =>
      collectSchema (df.map (fun p => (p.1, p.2.dtype))) rest

theorem getD_mem_of_lt (l : List α) (i : Nat) (d : α) (h : i < l.length) :
    l.getD i d ∈ l := by
  induction l generalizing i with
  | nil => simp at h
  | cons a l ih =>
      cases i with
      | zero =>
          rw [List.getD_cons_zero]
          exact List.mem_cons_self a l
      | succ i =>
          rw [List.getD_cons_succ]
          exact List.mem_cons_of_mem a (ih i (by simpa using h))

theorem chooseDtype_spec (det : String) :
    ∀ (inp : List String) (t : String) (rest : List String),
    chooseDtype det inp = some (t, rest) →
    t ∈ DTYPE_OPTIONS.map Prod.fst ∨ t = det := by
  intro inp
  induction inp with
  | nil =>
      intro t rest h
      exact absurd h (by simp [chooseDtype])
  | cons line inp0 ih =>
      intro t rest h
      rw [chooseDtype] at h
      by_cases h1 : pyIsDigit (pyStrip line) ∧ 1 ≤ pyToNat (pyStrip line) ∧
          pyToNat (pyStrip line) ≤ DTYPE_OPTIONS.length
      · rw [if_pos h1] at h
        left
        have hidx : pyToNat (pyStrip line) - 1 < (DTYPE_OPTIONS.map Prod.fst).length := by
          rw [List.length_map]
          omega
        have ht : t = (DTYPE_OPTIONS.map Prod.fst).getD (pyToNat (pyStrip line) - 1) "" := by
          have := congrArg (fun o => (Option.map Prod.fst o).getD "") h
          simpa using this.symm
        rw [ht]
        exact getD_mem_of_lt _ _ _ hidx
      · rw [if_neg h1] at h
        by_cases h2 : (pyStrip line) = ""
        · rw [if_pos h2] at h
          right
          have := congrArg (fun o => (Option.map Prod.fst o).getD "") h
          simpa using this.symm
        · rw [if_neg h2] at h
          exact ih t rest h

theorem collectSchema_spec :
    ∀ (pairs : List (String × String)) (inp : List String)
      (schema : List (String × String)),
    collectSchema pairs inp = some schema →
    schema.map Prod.fst = pairs.map Prod.fst
    ∧ ∀ p ∈ schema, p.2 ∈ DTYPE_OPTIONS.map Prod.fst ∨ p ∈ pairs := by
  intro pairs
  induction pairs with
  | nil =>
      intro inp schema h
      rw [collectSchema] at h
      have : schema = [] := by
        cases h
        rfl
      rw [this]
      exact ⟨rfl, by simp⟩
  | cons pd cols ih =>
      intro inp schema h
      obtain ⟨col, det⟩ := pd
      rw [collectSchema] at h
      cases hch : chooseDtype det inp with
      | none =>
          simp [hch] at h
      | some tr =>
          obtain ⟨t, rest⟩ := tr
          cases hcs : collectSchema cols rest with
          | none =>
              simp [hch, hcs] at h
          | some sch2 =>
              simp [hch, hcs] at h
              subst h
              obtain ⟨hkeys, hvals⟩ := ih rest sch2 hcs
              constructor
              · rw [List.map_cons, List.map_cons, hkeys]
              · intro p hp
                rcases List.mem_cons.mp hp with hpe | hpm
                · rcases chooseDtype_spec det inp t rest hch with hopt | hdet
                  · left
                    rw [hpe]
                    exact hopt
                  · right
                    rw [hpe, hdet]
                    exact List.mem_cons_self (col, det) cols
                · rcases hvals p hpm with hopt | hmem
                  · exact Or.inl hopt
                  · exact Or.inr (List.mem_cons_of_mem _ hmem)

/-- C9: whenever interactive schema creation completes, the handler's schema
has exactly one entry per dataframe column, in dataframe order; each entry's
value is one of the eight `DTYPE_OPTIONS` keys (chosen by a valid numeric
menu selection) or the string form of the column's detected dtype (empty
input); and an invalid menu line assigns nothing — the loop re-prompts on
the next line. -/
theorem create_interactive_schema_spec (df : Df) (inp : List String)
    (schema : List (String × String))
    (h : create_interactive_schema df inp = some schema) :
    schema.map Prod.fst = df.map Prod.fst
    ∧ (∀ p ∈ schema, p.2 ∈ DTYPE_OPTIONS.map Prod.fst ∨
        p ∈ df.map (fun q => (q.1, q.2.dtype)))
    ∧ ∀ (det line : String) (rest : List String),
        ¬ (pyIsDigit (pyStrip line) ∧ 1 ≤ pyToNat (pyStrip line) ∧
            pyToNat (pyStrip line) ≤ DTYPE_OPTIONS.length) →
        (pyStrip line) ≠ "" →
        chooseDtype det (line :: rest) = chooseDtype det rest := by
  have hskip : ∀ (det line : String) (rest : List String),
      ¬ (pyIsDigit (pyStrip line) ∧ 1 ≤ pyToNat (pyStrip line) ∧
          pyToNat (pyStrip line) ≤ DTYPE_OPTIONS.length) →
      (pyStrip line) ≠ "" →
      chooseDtype det (line :: rest) = chooseDtype det rest := by
    intro det line rest h1 h2
    rw [chooseDtype, if_neg h1, if_neg h2]
  cases inp with
  | nil => exact absurd h (by simp [create_interactive_schema])
  | cons l rest =>
      rw [create_interactive_schema] at h
      obtain ⟨hkeys, hvals⟩ :=
        collectSchema_spec (df.map (fun p => (p.1, p.2.dtype))) rest schema h
      refine ⟨?_, hvals, hskip⟩
      rw [hkeys, List.map_map]
      rfl

/-- Closed witness for `create_interactive_schema_spec`: the filename prompt
eats the first line; `"9"` (out of menu range) and `"x"` are rejected without
assigning; `"3"` selects `bool`; the empty line keeps the detected
`category`. -/
theorem create_interactive_schema_spec_witness :
    ([("age", "bool"), ("gender", "category")] :
        List (String × String)).map Prod.fst = dfAgeGender.map Prod.fst
    ∧ (∀ p ∈ ([("age", "bool"), ("gender", "category")] : List (String × String)),
        p.2 ∈ DTYPE_OPTIONS.map Prod.fst ∨
        p ∈ dfAgeGender.map (fun q => (q.1, q.2.dtype)))
    ∧ ∀ (det line : String) (rest : List String),
        ¬ (pyIsDigit (pyStrip line) ∧ 1 ≤ pyToNat (pyStrip line) ∧
            pyToNat (pyStrip line) ≤ DTYPE_OPTIONS.length) →
        (pyStrip line) ≠ "" →
        chooseDtype det (line :: rest) = chooseDtype det rest :=
  create_interactive_schema_spec dfAgeGender ["", "9", "x", "3", ""]
    [("age", "bool"), ("gender", "category")] (by decide)

end RedcapEda
